import Mathlib

/-!
Shallow embedding of `src/roots/roots.cpp`: four scalar root-finding
solvers (bisection, regula falsi, Newton-Raphson, secant).  Doubles are
modelled as rationals, caller-supplied callables as functions `ℚ → ℚ`,
and the C++ out-parameter `double *root` as an explicit value `r`
threaded through the computation: each solver returns the pair
`(found, m)` where `found` is the C++ boolean return value and `m` is
the final contents of the memory cell `*root` (initially `r`).  The
bounded `for` loops become fuel recursion; every loop function also
returns the number of loop iterations it executed, so that the
iteration budget is a provable bound rather than an assumption.
-/

/-- The tolerance `1e-6` used by every solver. -/
def tol : ℚ := 1 / 1000000

/-- The iteration cap of the `for` loops that start at `count = 0`
(`count < 1e6` allows 1,000,000 passes). -/
def cap : ℕ := 1000000

/-- The iteration cap of `newton_raphson`, whose loop starts at
`count = 1`, so only 999,999 passes are possible. -/
def capN : ℕ := 999999

/-- The loop of `bisection` (roots.cpp lines 17-33).  State: the
current bracket `a, b` and the root cell contents `r`.  Returns
`((found, cell), iterations)`. -/
def bisectionLoop (f : ℚ → ℚ) : ℕ → ℚ → ℚ → ℚ → (Bool × ℚ) × ℕ
  | 0, _, _, r => ((false, r), 0)
  | n + 1, a, b, r =>
    let c := (a + b) / 2
    if |f c| < tol ∨ |b - a| < tol then ((true, c), 1)
    else if f a * f c > 0 then
      let p := bisectionLoop f n c b r
      (p.1, p.2 + 1)
    else
      let p := bisectionLoop f n a c r
      (p.1, p.2 + 1)

/-- `bisection` (roots.cpp lines 4-36): exact-zero endpoint checks,
then the sign-change precondition, then the loop. -/
def bisection (f : ℚ → ℚ) (a b r : ℚ) : Bool × ℚ :=
  if f a = 0 then (true, a)
  else if f b = 0 then (true, b)
  else if f a * f b > 0 then (false, r)
  else (bisectionLoop f cap a b r).1

/-- Number of loop iterations a `bisection` call executes. -/
def bisectionIters (f : ℚ → ℚ) (a b r : ℚ) : ℕ :=
  if f a = 0 then 0
  else if f b = 0 then 0
  else if f a * f b > 0 then 0
  else (bisectionLoop f cap a b r).2

/-- The loop of `regula_falsi` (roots.cpp lines 48-65): same shape as
bisection with the false-position trial point. -/
def regulaLoop (f : ℚ → ℚ) : ℕ → ℚ → ℚ → ℚ → (Bool × ℚ) × ℕ
  | 0, _, _, r => ((false, r), 0)
  | n + 1, a, b, r =>
    let c := a - (f a * (b - a)) / (f b - f a)
    if |f c| < tol ∨ |b - a| < tol then ((true, c), 1)
    else if f a * f c > 0 then
      let p := regulaLoop f n c b r
      (p.1, p.2 + 1)
    else
      let p := regulaLoop f n a c r
      (p.1, p.2 + 1)

/-- `regula_falsi` (roots.cpp lines 38-67). -/
def regula_falsi (f : ℚ → ℚ) (a b r : ℚ) : Bool × ℚ :=
  if f a * f b ≥ 0 then (false, r)
  else (regulaLoop f cap a b r).1

/-- Number of loop iterations a `regula_falsi` call executes. -/
def regulaIters (f : ℚ → ℚ) (a b r : ℚ) : ℕ :=
  if f a * f b ≥ 0 then 0
  else (regulaLoop f cap a b r).2

/-- The loop of `newton_raphson` (roots.cpp lines 78-104).  State: the
current iterate `xn` and the root cell contents `r`; the confinement
bounds `a, b` never change. -/
def newtonLoop (f g : ℚ → ℚ) (a b : ℚ) : ℕ → ℚ → ℚ → (Bool × ℚ) × ℕ
  | 0, _, r => ((false, r), 0)
  | n + 1, xn, r =>
    let fx := f xn
    let dfx := g xn
    if |dfx| < tol then ((false, r), 1)
    else
      let next := xn - fx / dfx
      if next < a ∨ next > b then ((false, r), 1)
      else if |next - xn| < tol then ((true, next), 1)
      else
        let p := newtonLoop f g a b n next r
        (p.1, p.2 + 1)

/-- `newton_raphson` (roots.cpp lines 69-108): iterate from the guess
`c`; the loop counter starts at 1, hence the `capN` budget. -/
def newton_raphson (f g : ℚ → ℚ) (a b c r : ℚ) : Bool × ℚ :=
  (newtonLoop f g a b capN c r).1

/-- Number of loop iterations a `newton_raphson` call executes. -/
def newtonIters (f g : ℚ → ℚ) (a b c r : ℚ) : ℕ :=
  (newtonLoop f g a b capN c r).2

/-- The loop of `secant` (roots.cpp lines 119-146).  State: the two
running iterates `prev` and `x` and the root cell contents `r`; the
bounds `a, b` are the original inputs and never change. -/
def secantLoop (f : ℚ → ℚ) (a b : ℚ) : ℕ → ℚ → ℚ → ℚ → (Bool × ℚ) × ℕ
  | 0, _, _, r => ((false, r), 0)
  | n + 1, prev, x, r =>
    let fx := f x
    let fp := f prev
    if |fx - fp| < tol then ((false, r), 1)
    else
      let next := x - fx * (x - prev) / (fx - fp)
      if next < a ∨ next > b then ((false, r), 1)
      else if |next - x| < tol then ((true, next), 1)
      else
        let p := secantLoop f a b n x next r
        (p.1, p.2 + 1)

/-- `secant` (roots.cpp lines 110-148): starts from `prev_xn = a`,
`xn = b`; the third scalar parameter `c` appears in the signature but
is never read. -/
def secant (f : ℚ → ℚ) (a b c r : ℚ) : Bool × ℚ :=
  (secantLoop f a b cap a b r).1

/-- Number of loop iterations a `secant` call executes. -/
def secantIters (f : ℚ → ℚ) (a b c r : ℚ) : ℕ :=
  (secantLoop f a b cap a b r).2

/-! ### Step equations and shared lemmas -/

lemma bisectionLoop_succ (f : ℚ → ℚ) (n : ℕ) (a b r : ℚ) :
    bisectionLoop f (n + 1) a b r =
      if |f ((a + b) / 2)| < tol ∨ |b - a| < tol then ((true, (a + b) / 2), 1)
      else if f a * f ((a + b) / 2) > 0 then
        ((bisectionLoop f n ((a + b) / 2) b r).1,
         (bisectionLoop f n ((a + b) / 2) b r).2 + 1)
      else
        ((bisectionLoop f n a ((a + b) / 2) r).1,
         (bisectionLoop f n a ((a + b) / 2) r).2 + 1) := rfl

lemma regulaLoop_succ (f : ℚ → ℚ) (n : ℕ) (a b r : ℚ) :
    regulaLoop f (n + 1) a b r =
      if |f (a - (f a * (b - a)) / (f b - f a))| < tol ∨ |b - a| < tol then
        ((true, a - (f a * (b - a)) / (f b - f a)), 1)
      else if f a * f (a - (f a * (b - a)) / (f b - f a)) > 0 then
        ((regulaLoop f n (a - (f a * (b - a)) / (f b - f a)) b r).1,
         (regulaLoop f n (a - (f a * (b - a)) / (f b - f a)) b r).2 + 1)
      else
        ((regulaLoop f n a (a - (f a * (b - a)) / (f b - f a)) r).1,
         (regulaLoop f n a (a - (f a * (b - a)) / (f b - f a)) r).2 + 1) := rfl

lemma newtonLoop_succ (f g : ℚ → ℚ) (a b : ℚ) (n : ℕ) (xn r : ℚ) :
    newtonLoop f g a b (n + 1) xn r =
      if |g xn| < tol then ((false, r), 1)
      else if xn - f xn / g xn < a ∨ xn - f xn / g xn > b then ((false, r), 1)
      else if |xn - f xn / g xn - xn| < tol then ((true, xn - f xn / g xn), 1)
      else
        ((newtonLoop f g a b n (xn - f xn / g xn) r).1,
         (newtonLoop f g a b n (xn - f xn / g xn) r).2 + 1) := rfl

lemma secantLoop_succ (f : ℚ → ℚ) (a b : ℚ) (n : ℕ) (prev x r : ℚ) :
    secantLoop f a b (n + 1) prev x r =
      if |f x - f prev| < tol then ((false, r), 1)
      else if x - f x * (x - prev) / (f x - f prev) < a ∨
              x - f x * (x - prev) / (f x - f prev) > b then ((false, r), 1)
      else if |x - f x * (x - prev) / (f x - f prev) - x| < tol then
        ((true, x - f x * (x - prev) / (f x - f prev)), 1)
      else
        ((secantLoop f a b n x (x - f x * (x - prev) / (f x - f prev)) r).1,
         (secantLoop f a b n x (x - f x * (x - prev) / (f x - f prev)) r).2 + 1) := rfl

lemma bisectionLoop_iters_le (f : ℚ → ℚ) :
    ∀ n a b r, (bisectionLoop f n a b r).2 ≤ n := by
  intro n
  induction n with
  | zero => intro a b r; simp [bisectionLoop]
  | succ n ih =>
    intro a b r
    rw [bisectionLoop_succ]
    split
    · simp
    · split
      · exact Nat.succ_le_succ (ih _ _ _)
      · exact Nat.succ_le_succ (ih _ _ _)

lemma regulaLoop_iters_le (f : ℚ → ℚ) :
    ∀ n a b r, (regulaLoop f n a b r).2 ≤ n := by
  intro n
  induction n with
  | zero => intro a b r; simp [regulaLoop]
  | succ n ih =>
    intro a b r
    rw [regulaLoop_succ]
    split
    · simp
    · split
      · exact Nat.succ_le_succ (ih _ _ _)
      · exact Nat.succ_le_succ (ih _ _ _)

lemma newtonLoop_iters_le (f g : ℚ → ℚ) (a b : ℚ) :
    ∀ n xn r, (newtonLoop f g a b n xn r).2 ≤ n := by
  intro n
  induction n with
  | zero => intro xn r; simp [newtonLoop]
  | succ n ih =>
    intro xn r
    rw [newtonLoop_succ]
    split
    · simp
    · split
      · simp
      · split
        · simp
        · exact Nat.succ_le_succ (ih _ _)

lemma secantLoop_iters_le (f : ℚ → ℚ) (a b : ℚ) :
    ∀ n prev x r, (secantLoop f a b n prev x r).2 ≤ n := by
  intro n
  induction n with
  | zero => intro prev x r; simp [secantLoop]
  | succ n ih =>
    intro prev x r
    rw [secantLoop_succ]
    split
    · simp
    · split
      · simp
      · split
        · simp
        · exact Nat.succ_le_succ (ih _ _ _)

lemma bisectionLoop_frame (f : ℚ → ℚ) :
    ∀ n a b r, (bisectionLoop f n a b r).1.1 = false →
      (bisectionLoop f n a b r).1.2 = r := by
  intro n
  induction n with
  | zero => intro a b r _; rfl
  | succ n ih =>
    intro a b r h
    rw [bisectionLoop_succ] at h ⊢
    split_ifs at h ⊢ with h1 h2
    · exact ih _ _ _ h
    · exact ih _ _ _ h

lemma regulaLoop_frame (f : ℚ → ℚ) :
    ∀ n a b r, (regulaLoop f n a b r).1.1 = false →
      (regulaLoop f n a b r).1.2 = r := by
  intro n
  induction n with
  | zero => intro a b r _; rfl
  | succ n ih =>
    intro a b r h
    rw [regulaLoop_succ] at h ⊢
    split_ifs at h ⊢ with h1 h2
    · exact ih _ _ _ h
    · exact ih _ _ _ h

lemma newtonLoop_frame (f g : ℚ → ℚ) (a b : ℚ) :
    ∀ n xn r, (newtonLoop f g a b n xn r).1.1 = false →
      (newtonLoop f g a b n xn r).1.2 = r := by
  intro n
  induction n with
  | zero => intro xn r _; rfl
  | succ n ih =>
    intro xn r h
    rw [newtonLoop_succ] at h ⊢
    split_ifs at h ⊢ with h1 h2 h3
    · rfl
    · rfl
    · exact ih _ _ h

lemma secantLoop_frame (f : ℚ → ℚ) (a b : ℚ) :
    ∀ n prev x r, (secantLoop f a b n prev x r).1.1 = false →
      (secantLoop f a b n prev x r).1.2 = r := by
  intro n
  induction n with
  | zero => intro prev x r _; rfl
  | succ n ih =>
    intro prev x r h
    rw [secantLoop_succ] at h ⊢
    split_ifs at h ⊢ with h1 h2 h3
    · rfl
    · rfl
    · exact ih _ _ _ h

/-! ### Claim theorems -/

/-- C10: `secant`'s result does not depend on its third scalar
parameter: for every `f`, `a`, `b`, any two values of that parameter
and any initial root cell contents, the two calls return the same
boolean and the same root cell. -/
theorem secant_ignores_third_param (f : ℚ → ℚ) (a b c1 c2 r : ℚ) :
    secant f a b c1 r = secant f a b c2 r := rfl

/-- C7: `bisection` returns immediately with root `a` when `f a = 0`,
and with root `b` when `f b = 0` (checked after `a`), ahead of the
sign-change check and the loop; concretely, on `f x = x` over `[0, 2]`
it returns `true` with root `0`. -/
theorem bisection_zero_endpoint (f : ℚ → ℚ) (a b r : ℚ) :
    (f a = 0 → bisection f a b r = (true, a)) ∧
    (f a ≠ 0 → f b = 0 → bisection f a b r = (true, b)) ∧
    bisection (fun x => x) 0 2 r = (true, 0) := by
  refine ⟨?_, ?_, ?_⟩
  · intro h; simp [bisection, h]
  · intro h1 h2; simp [bisection, h1, h2]
  · simp [bisection]

/-- Witness for C7 at `f x = x` on `[0, 2]` and `f x = x - 2` on
`[0, 2]`. -/
theorem bisection_zero_endpoint_witness :
    bisection (fun x => x) 0 2 5 = (true, 0) ∧
    bisection (fun x => x - 2) 0 2 5 = (true, 2) := by
  constructor
  · exact (bisection_zero_endpoint (fun x => x) 0 2 5).1 (by norm_num)
  · exact (bisection_zero_endpoint (fun x => x - 2) 0 2 5).2.1 (by norm_num)
      (by norm_num)

/-- C6: `regula_falsi` fails whenever `f a * f b ≥ 0`; in particular
an exact-zero endpoint (which makes the product exactly zero) is
rejected rather than returned as a root. -/
theorem regula_falsi_strict_precondition (f : ℚ → ℚ) (a b r : ℚ) :
    (f a * f b ≥ 0 → regula_falsi f a b r = (false, r)) ∧
    (f a = 0 → regula_falsi f a b r = (false, r)) ∧
    (f b = 0 → regula_falsi f a b r = (false, r)) := by
  refine ⟨?_, ?_, ?_⟩
  · intro h; simp [regula_falsi, h]
  · intro h; simp [regula_falsi, h]
  · intro h; simp [regula_falsi, h]

/-- Witness for C6: a zero left endpoint, a zero right endpoint, and a
same-sign pair all make `regula_falsi` fail. -/
theorem regula_falsi_strict_precondition_witness :
    regula_falsi (fun x => x) 0 2 7 = (false, 7) ∧
    regula_falsi (fun x => x - 2) 0 2 7 = (false, 7) ∧
    regula_falsi (fun x => x + 1) 1 2 7 = (false, 7) := by
  refine ⟨?_, ?_, ?_⟩
  · exact (regula_falsi_strict_precondition (fun x => x) 0 2 7).2.1 (by norm_num)
  · exact (regula_falsi_strict_precondition (fun x => x - 2) 0 2 7).2.2
      (by norm_num)
  · exact (regula_falsi_strict_precondition (fun x => x + 1) 1 2 7).1
      (by norm_num)

/-- C4: every solver stays within the iteration budget: for all inputs
the number of executed loop iterations is at most 1,000,000 (the
functions are total, so each call returns a boolean verdict). -/
theorem solvers_terminate_within_budget (f g : ℚ → ℚ) (a b c r : ℚ) :
    bisectionIters f a b r ≤ 1000000 ∧ regulaIters f a b r ≤ 1000000 ∧
    newtonIters f g a b c r ≤ 1000000 ∧ secantIters f a b c r ≤ 1000000 := by
  refine ⟨?_, ?_, ?_, ?_⟩
  · unfold bisectionIters
    split_ifs
    any_goals exact Nat.zero_le _
    exact bisectionLoop_iters_le f cap a b r
  · unfold regulaIters
    split_ifs
    any_goals exact Nat.zero_le _
    exact regulaLoop_iters_le f cap a b r
  · exact le_trans (newtonLoop_iters_le f g a b capN c r) (by norm_num [capN])
  · exact secantLoop_iters_le f a b cap a b r

/-- C5: whenever a solver returns `false`, the root cell keeps its
initial contents `r`: a root is written only on success paths. -/
theorem failure_leaves_root_untouched (f g : ℚ → ℚ) (a b c r : ℚ) :
    ((bisection f a b r).1 = false → (bisection f a b r).2 = r) ∧
    ((regula_falsi f a b r).1 = false → (regula_falsi f a b r).2 = r) ∧
    ((newton_raphson f g a b c r).1 = false →
      (newton_raphson f g a b c r).2 = r) ∧
    ((secant f a b c r).1 = false → (secant f a b c r).2 = r) := by
  refine ⟨?_, ?_, ?_, ?_⟩
  · intro h
    by_cases ha : f a = 0
    · simp [bisection, ha] at h
    · by_cases hb : f b = 0
      · simp [bisection, ha, hb] at h
      · by_cases hab : f a * f b > 0
        · simp [bisection, ha, hb, hab]
        · simp only [bisection, if_neg ha, if_neg hb, if_neg hab] at h ⊢
          exact bisectionLoop_frame f cap a b r h
  · intro h
    by_cases hab : f a * f b ≥ 0
    · simp [regula_falsi, hab]
    · simp only [regula_falsi, if_neg hab] at h ⊢
      exact regulaLoop_frame f cap a b r h
  · intro h
    exact newtonLoop_frame f g a b capN c r h
  · intro h
    exact secantLoop_frame f a b cap a b r h

/-- Witness for C5: with `f x = 1` every solver fails (bisection and
regula falsi at the precondition, Newton-Raphson at the zero
derivative `g x = 0`, secant at the flat slope), and the root cell
keeps its initial value 9. -/
theorem failure_leaves_root_untouched_witness :
    (bisection (fun _ => 1) 0 2 9).2 = 9 ∧
    (regula_falsi (fun _ => 1) 0 2 9).2 = 9 ∧
    (newton_raphson (fun _ => 1) (fun _ => 0) 0 2 1 9).2 = 9 ∧
    (secant (fun _ => 1) 0 2 1 9).2 = 9 := by
  have H := failure_leaves_root_untouched (fun _ => (1 : ℚ)) (fun _ => 0) 0 2 1 9
  refine ⟨H.1 ?_, H.2.1 ?_, H.2.2.1 ?_, H.2.2.2 ?_⟩
  · norm_num [bisection]
  · norm_num [regula_falsi]
  · show (newtonLoop (fun _ => (1 : ℚ)) (fun _ => 0) 0 2 capN 1 9).1.1 = false
    rw [show capN = 999998 + 1 from rfl, newtonLoop_succ]
    norm_num [tol]
  · show (secantLoop (fun _ => (1 : ℚ)) 0 2 cap 0 2 9).1.1 = false
    rw [show cap = 999999 + 1 from rfl, secantLoop_succ]
    norm_num [tol]

/-- C1: once past the pre-loop checks, `bisection` runs the loop, and
each loop iteration computes the midpoint `c = (a + b) / 2`, succeeds
with root `c` as soon as `|f c| < tol` or `|b - a| < tol` (either
disjunct alone suffices), and otherwise replaces `a` by `c` when
`f a * f c > 0` and replaces `b` by `c` otherwise. -/
theorem bisection_loop_behavior (f : ℚ → ℚ) (a b r : ℚ) (n : ℕ) :
    (f a ≠ 0 → f b ≠ 0 → ¬ f a * f b > 0 →
      bisection f a b r = (bisectionLoop f cap a b r).1) ∧
    ((|f ((a + b) / 2)| < tol ∨ |b - a| < tol) →
      (bisectionLoop f (n + 1) a b r).1 = (true, (a + b) / 2)) ∧
    (¬ (|f ((a + b) / 2)| < tol ∨ |b - a| < tol) →
      f a * f ((a + b) / 2) > 0 →
      (bisectionLoop f (n + 1) a b r).1 =
        (bisectionLoop f n ((a + b) / 2) b r).1) ∧
    (¬ (|f ((a + b) / 2)| < tol ∨ |b - a| < tol) →
      ¬ f a * f ((a + b) / 2) > 0 →
      (bisectionLoop f (n + 1) a b r).1 =
        (bisectionLoop f n a ((a + b) / 2) r).1) := by
  refine ⟨?_, ?_, ?_, ?_⟩
  · intro h1 h2 h3; simp [bisection, h1, h2, h3]
  · intro h; rw [bisectionLoop_succ, if_pos h]
  · intro h h2; rw [bisectionLoop_succ, if_neg h, if_pos h2]
  · intro h h2; rw [bisectionLoop_succ, if_neg h, if_neg h2]

/-- Witness for C1: on `f x = x`, the call over `[-1, 1]` enters the
loop, a step over `[-1, 1]` succeeds at the midpoint 0, a step over
`[3, 5]` moves `a` to the midpoint 4, and a step over `[-1, 9]` moves
`b` to the midpoint 4. -/
theorem bisection_loop_behavior_witness :
    bisection (fun x => x) (-1) 1 5 =
      (bisectionLoop (fun x => x) cap (-1) 1 5).1 ∧
    (bisectionLoop (fun x => x) 1 (-1) 1 5).1 = (true, 0) ∧
    (bisectionLoop (fun x => x) 1 3 5 9).1 =
      (bisectionLoop (fun x => x) 0 4 5 9).1 ∧
    (bisectionLoop (fun x => x) 1 (-1) 9 5).1 =
      (bisectionLoop (fun x => x) 0 (-1) 4 5).1 := by
  refine ⟨?_, ?_, ?_, ?_⟩
  · exact (bisection_loop_behavior (fun x => x) (-1) 1 5 0).1 (by norm_num)
      (by norm_num) (by norm_num)
  · have H := (bisection_loop_behavior (fun x => x) (-1) 1 5 0).2.1
      (by norm_num [tol])
    simpa using H
  · have H := (bisection_loop_behavior (fun x => x) 3 5 9 0).2.2.1
      (by norm_num [tol]) (by norm_num)
    simpa using H
  · have H := (bisection_loop_behavior (fun x => x) (-1) 9 5 0).2.2.2
      (by norm_num [tol]) (by norm_num)
    simpa using H

/-- C2: `newton_raphson` iterates from the guess `c`, and each loop
iteration whose derivative guard passes computes
`next = xn - f xn / g xn`, fails at once when `next` leaves `[a, b]`,
succeeds with root `next` when `|next - xn| < tol` (no test of
`f next` is involved), and otherwise continues from `next`. -/
theorem newton_step_behavior (f g : ℚ → ℚ) (a b c r xn : ℚ) (n : ℕ)
    (hd : ¬ |g xn| < tol) :
    (newton_raphson f g a b c r = (newtonLoop f g a b capN c r).1) ∧
    ((xn - f xn / g xn < a ∨ xn - f xn / g xn > b) →
      (newtonLoop f g a b (n + 1) xn r).1 = (false, r)) ∧
    (¬ (xn - f xn / g xn < a ∨ xn - f xn / g xn > b) →
      |xn - f xn / g xn - xn| < tol →
      (newtonLoop f g a b (n + 1) xn r).1 = (true, xn - f xn / g xn)) ∧
    (¬ (xn - f xn / g xn < a ∨ xn - f xn / g xn > b) →
      ¬ |xn - f xn / g xn - xn| < tol →
      (newtonLoop f g a b (n + 1) xn r).1 =
        (newtonLoop f g a b n (xn - f xn / g xn) r).1) := by
  refine ⟨rfl, ?_, ?_, ?_⟩
  · intro h; rw [newtonLoop_succ, if_neg hd, if_pos h]
  · intro h1 h2; rw [newtonLoop_succ, if_neg hd, if_neg h1, if_pos h2]
  · intro h1 h2; rw [newtonLoop_succ, if_neg hd, if_neg h1, if_neg h2]

/-- Witness for C2 with `g x = 1` on `[-10, 10]`: `f x = -100` makes
the step leave the interval, `f x = 0` converges at once, and
`f x = 5` moves the iterate from 0 to -5. -/
theorem newton_step_behavior_witness :
    newton_raphson (fun _ => 5) (fun _ => 1) (-10) 10 0 7 =
      (newtonLoop (fun _ => 5) (fun _ => 1) (-10) 10 capN 0 7).1 ∧
    (newtonLoop (fun _ => -100) (fun _ => 1) (-10) 10 1 0 7).1 = (false, 7) ∧
    (newtonLoop (fun _ => 0) (fun _ => 1) (-10) 10 1 0 7).1 = (true, 0) ∧
    (newtonLoop (fun _ => 5) (fun _ => 1) (-10) 10 1 0 7).1 =
      (newtonLoop (fun _ => 5) (fun _ => 1) (-10) 10 0 (-5) 7).1 := by
  refine ⟨?_, ?_, ?_, ?_⟩
  · exact (newton_step_behavior (fun _ => 5) (fun _ => 1) (-10) 10 0 7 0 0
      (by norm_num [tol])).1
  · have H := (newton_step_behavior (fun _ => -100) (fun _ => 1) (-10) 10 0 7 0 0
      (by norm_num [tol])).2.1 (by norm_num)
    simpa using H
  · have H := (newton_step_behavior (fun _ => 0) (fun _ => 1) (-10) 10 0 7 0 0
      (by norm_num [tol])).2.2.1 (by norm_num) (by norm_num [tol])
    simpa using H
  · have H := (newton_step_behavior (fun _ => 5) (fun _ => 1) (-10) 10 0 7 0 0
      (by norm_num [tol])).2.2.2 (by norm_num) (by norm_num [tol])
    simpa using H

/-- C3: `secant` starts its iteration at `prev = a`, `x = b`, and each
loop iteration whose slope guard passes computes
`next = x - f x * (x - prev) / (f x - f prev)`, fails at once when
`next` leaves the original `[a, b]` (the loop carries `a` and `b`
unchanged), succeeds with root `next` when `|next - x| < tol`, and
otherwise continues with the pair `(x, next)`. -/
theorem secant_step_behavior (f : ℚ → ℚ) (a b c r prev x : ℚ) (n : ℕ)
    (hs : ¬ |f x - f prev| < tol) :
    (secant f a b c r = (secantLoop f a b cap a b r).1) ∧
    ((x - f x * (x - prev) / (f x - f prev) < a ∨
      x - f x * (x - prev) / (f x - f prev) > b) →
      (secantLoop f a b (n + 1) prev x r).1 = (false, r)) ∧
    (¬ (x - f x * (x - prev) / (f x - f prev) < a ∨
        x - f x * (x - prev) / (f x - f prev) > b) →
      |x - f x * (x - prev) / (f x - f prev) - x| < tol →
      (secantLoop f a b (n + 1) prev x r).1 =
        (true, x - f x * (x - prev) / (f x - f prev))) ∧
    (¬ (x - f x * (x - prev) / (f x - f prev) < a ∨
        x - f x * (x - prev) / (f x - f prev) > b) →
      ¬ |x - f x * (x - prev) / (f x - f prev) - x| < tol →
      (secantLoop f a b (n + 1) prev x r).1 =
        (secantLoop f a b n x (x - f x * (x - prev) / (f x - f prev)) r).1) := by
  refine ⟨rfl, ?_, ?_, ?_⟩
  · intro h; rw [secantLoop_succ, if_neg hs, if_pos h]
  · intro h1 h2; rw [secantLoop_succ, if_neg hs, if_neg h1, if_pos h2]
  · intro h1 h2; rw [secantLoop_succ, if_neg hs, if_neg h1, if_neg h2]

/-- Witness for C3: `f x = x - 20` over `[0, 10]` diverges above `b`
in one step; `f x = x` from the pair `(1, 0)` converges at once to 0;
`f x = x` from the pair `(4, 8)` continues with the pair `(8, 0)`. -/
theorem secant_step_behavior_witness :
    secant (fun x => x) 0 10 3 7 =
      (secantLoop (fun x => x) 0 10 cap 0 10 7).1 ∧
    (secantLoop (fun x => x - 20) 0 10 1 9 10 7).1 = (false, 7) ∧
    (secantLoop (fun x => x) (-10) 10 1 1 0 7).1 = (true, 0) ∧
    (secantLoop (fun x => x) (-10) 10 1 4 8 7).1 =
      (secantLoop (fun x => x) (-10) 10 0 8 0 7).1 := by
  refine ⟨?_, ?_, ?_, ?_⟩
  · exact (secant_step_behavior (fun x => x) 0 10 3 7 9 10 0
      (by norm_num [tol])).1
  · have H := (secant_step_behavior (fun x => x - 20) 0 10 3 7 9 10 0
      (by norm_num [tol])).2.1 (by norm_num)
    simpa using H
  · have H := (secant_step_behavior (fun x => x) (-10) 10 3 7 1 0 0
      (by norm_num [tol])).2.2.1 (by norm_num) (by norm_num [tol])
    simpa using H
  · have H := (secant_step_behavior (fun x => x) (-10) 10 3 7 4 8 0
      (by norm_num [tol])).2.2.2 (by norm_num) (by norm_num [tol])
    simpa using H

/-- C8: a Newton iteration with `|g xn| < tol` fails at once (so
`newton_raphson` with `g` identically zero fails on its first step),
and a secant iteration with `|f x - f prev| < tol` fails at once; in
both cases before any division is used. -/
theorem division_guard_failures (f g : ℚ → ℚ) (a b c r xn prev x : ℚ)
    (n : ℕ) :
    (|g xn| < tol → (newtonLoop f g a b (n + 1) xn r).1 = (false, r)) ∧
    ((∀ y, g y = 0) → newton_raphson f g a b c r = (false, r)) ∧
    (|f x - f prev| < tol → (secantLoop f a b (n + 1) prev x r).1 = (false, r)) := by
  refine ⟨?_, ?_, ?_⟩
  · intro h; rw [newtonLoop_succ, if_pos h]
  · intro h
    show (newtonLoop f g a b capN c r).1 = (false, r)
    have hz : |g c| < tol := by rw [h c]; norm_num [tol]
    rw [show capN = 999998 + 1 from rfl, newtonLoop_succ, if_pos hz]
  · intro h; rw [secantLoop_succ, if_pos h]

/-- Witness for C8: a Newton step with derivative value 0 fails, the
full `newton_raphson` with `g x = 0` fails, and a secant step on the
constant `f x = 1` fails, all leaving the cell at 7. -/
theorem division_guard_failures_witness :
    (newtonLoop (fun x => x) (fun _ => 0) (-10) 10 1 2 7).1 = (false, 7) ∧
    newton_raphson (fun x => x) (fun _ => 0) (-10) 10 2 7 = (false, 7) ∧
    (secantLoop (fun _ => 1) 0 10 1 2 5 7).1 = (false, 7) := by
  have H := division_guard_failures (fun x => x) (fun _ => (0 : ℚ))
    (-10) 10 2 7 2 2 5 0
  refine ⟨?_, H.2.1 (fun y => rfl), ?_⟩
  · have h := H.1 (by norm_num [tol])
    simpa using h
  · have h := (division_guard_failures (fun _ => (1 : ℚ)) (fun _ => 0)
      0 10 2 7 2 2 5 0).2.2 (by norm_num [tol])
    simpa using h

lemma bracket_sign_step (x y z : ℚ) (hxy : x * y < 0) (hz : z ≠ 0) :
    (x * z > 0 → z * y < 0) ∧ (¬ x * z > 0 → x * z < 0) := by
  have hx : x ≠ 0 := by rintro rfl; simp at hxy
  constructor
  · intro hp
    have h1 : (x * z) * (x * y) < 0 := mul_neg_of_pos_of_neg hp hxy
    nlinarith [sq_nonneg x, h1]
  · intro hnp
    exact lt_of_le_of_ne (not_lt.mp hnp) (mul_ne_zero hx hz)

/-- C9: in both bracketing loops, a sign-changing bracket is a loop
invariant: if `f a * f b < 0` and the iteration does not return (its
success test is false), then the narrowing step recurses on a bracket
whose endpoint values still multiply to a negative number — `a`
replaced by the trial point `c` when `f a * f c > 0` (so
`f c * f b < 0`), and `b` replaced by `c` otherwise (so
`f a * f c < 0`). -/
theorem bracket_sign_invariant (f : ℚ → ℚ) (a b r : ℚ) (n : ℕ)
    (hab : f a * f b < 0) :
    (¬ (|f ((a + b) / 2)| < tol ∨ |b - a| < tol) →
      (f a * f ((a + b) / 2) > 0 →
        (bisectionLoop f (n + 1) a b r).1 =
          (bisectionLoop f n ((a + b) / 2) b r).1 ∧
        f ((a + b) / 2) * f b < 0) ∧
      (¬ f a * f ((a + b) / 2) > 0 →
        (bisectionLoop f (n + 1) a b r).1 =
          (bisectionLoop f n a ((a + b) / 2) r).1 ∧
        f a * f ((a + b) / 2) < 0)) ∧
    (¬ (|f (a - (f a * (b - a)) / (f b - f a))| < tol ∨ |b - a| < tol) →
      (f a * f (a - (f a * (b - a)) / (f b - f a)) > 0 →
        (regulaLoop f (n + 1) a b r).1 =
          (regulaLoop f n (a - (f a * (b - a)) / (f b - f a)) b r).1 ∧
        f (a - (f a * (b - a)) / (f b - f a)) * f b < 0) ∧
      (¬ f a * f (a - (f a * (b - a)) / (f b - f a)) > 0 →
        (regulaLoop f (n + 1) a b r).1 =
          (regulaLoop f n a (a - (f a * (b - a)) / (f b - f a)) r).1 ∧
        f a * f (a - (f a * (b - a)) / (f b - f a)) < 0)) := by
  constructor
  · intro hno
    have hc : f ((a + b) / 2) ≠ 0 := by
      intro h0
      exact hno (Or.inl (by rw [h0]; norm_num [tol]))
    have S := bracket_sign_step (f a) (f b) (f ((a + b) / 2)) hab hc
    constructor
    · intro hp
      exact ⟨by rw [bisectionLoop_succ, if_neg hno, if_pos hp], S.1 hp⟩
    · intro hnp
      exact ⟨by rw [bisectionLoop_succ, if_neg hno, if_neg hnp], S.2 hnp⟩
  · intro hno
    have hc : f (a - (f a * (b - a)) / (f b - f a)) ≠ 0 := by
      intro h0
      exact hno (Or.inl (by rw [h0]; norm_num [tol]))
    have S := bracket_sign_step (f a) (f b)
      (f (a - (f a * (b - a)) / (f b - f a))) hab hc
    constructor
    · intro hp
      exact ⟨by rw [regulaLoop_succ, if_neg hno, if_pos hp], S.1 hp⟩
    · intro hnp
      exact ⟨by rw [regulaLoop_succ, if_neg hno, if_neg hnp], S.2 hnp⟩

/-- Witness for C9 on `f x = x * x - 2` over `[1, 2]`: the bisection
step keeps the bracket `[1, 3/2]` with a sign change, and the regula
falsi step keeps the bracket `[4/3, 2]` with a sign change. -/
theorem bracket_sign_invariant_witness :
    ((bisectionLoop (fun x => x * x - 2) 1 1 2 7).1 =
       (bisectionLoop (fun x => x * x - 2) 0 1 (3 / 2) 7).1 ∧
     ((1 : ℚ) * 1 - 2) * ((3 / 2 : ℚ) * (3 / 2) - 2) < 0) ∧
    ((regulaLoop (fun x => x * x - 2) 1 1 2 7).1 =
       (regulaLoop (fun x => x * x - 2) 0 (4 / 3) 2 7).1 ∧
     ((4 / 3 : ℚ) * (4 / 3) - 2) * ((2 : ℚ) * 2 - 2) < 0) := by
  have H := bracket_sign_invariant (fun x => x * x - 2) 1 2 7 0 (by norm_num)
  have hb := (H.1 (by norm_num [tol, abs_lt])).2 (by norm_num)
  have hr := (H.2 (by norm_num [tol, abs_lt])).1 (by norm_num)
  refine ⟨⟨?_, by norm_num⟩, ?_, by norm_num⟩
  · have h1 := hb.1
    norm_num at h1
    exact h1
  · have h1 := hr.1
    norm_num at h1
    exact h1
